import Mathlib

/-!
Verification of the deepkit python SDK client (src/deepkit/client.py) against its
natural-language specification.  The development shallowly embeds the data model
and the operations of the client: JSON values, the outbound queue, the patch
buffer, the pending-call and subscription tables, the send loop, the inbound
dispatch loop, controller registration and the shutdown sequence.  Python
evaluation details that the claims depend on are modelled explicitly: dictionary
indexing raises a KeyError when the key is absent, exceptions abort the rest of
a handler while keeping the state mutations already performed, and the outcomes
of transport sends are supplied by an oracle parameter.
-/

namespace Deepkit

/-- JSON values, as produced by json.loads and consumed by json.dumps in
client.py.  Objects keep their insertion order, matching python dictionaries. -/
inductive JVal where
  | null
  | boolean : Bool → JVal
  | num : Int → JVal
  | str : String → JVal
  | arr : List JVal → JVal
  | obj : List (String × JVal) → JVal
  deriving Repr

mutual

/-- Structural equality of JSON values, mirroring python == on parsed JSON. -/
def jeq : JVal → JVal → Bool
  | .null, .null => true
  | .boolean a, .boolean b => a == b
  | .num a, .num b => a == b
  | .str a, .str b => a == b
  | .arr a, .arr b => jeqArr a b
  | .obj a, .obj b => jeqObj a b
  | _, _ => false

def jeqArr : List JVal → List JVal → Bool
  | [], [] => true
  | x :: xs, y :: ys => jeq x y && jeqArr xs ys
  | _, _ => false

def jeqObj : List (String × JVal) → List (String × JVal) → Bool
  | [], [] => true
  | (k, v) :: xs, (l, w) :: ys => k == l && jeq v w && jeqObj xs ys
  | _, _ => false

end

mutual

theorem jeq_refl : ∀ a, jeq a a = true
  | .null => rfl
  | .boolean a => by simp [jeq]
  | .num a => by simp [jeq]
  | .str a => by simp [jeq]
  | .arr a => by simp [jeq, jeqArr_refl a]
  | .obj a => by simp [jeq, jeqObj_refl a]

theorem jeqArr_refl : ∀ a, jeqArr a a = true
  | [] => rfl
  | x :: xs => by simp [jeqArr, jeq_refl x, jeqArr_refl xs]

theorem jeqObj_refl : ∀ a, jeqObj a a = true
  | [] => rfl
  | (k, v) :: xs => by simp [jeqObj, jeq_refl v, jeqObj_refl xs]

end

mutual

theorem jeq_sound : ∀ a b, jeq a b = true → a = b
  | .null, b, h => by cases b <;> simp_all [jeq]
  | .boolean a, b, h => by cases b <;> simp_all [jeq]
  | .num a, b, h => by cases b <;> simp_all [jeq]
  | .str a, b, h => by cases b <;> simp_all [jeq]
  | .arr a, .arr b, h => by
      simp only [jeq] at h
      exact congrArg JVal.arr (jeqArr_sound a b h)
  | .arr a, .null, h => by simp [jeq] at h
  | .arr a, .boolean _, h => by simp [jeq] at h
  | .arr a, .num _, h => by simp [jeq] at h
  | .arr a, .str _, h => by simp [jeq] at h
  | .arr a, .obj _, h => by simp [jeq] at h
  | .obj a, .obj b, h => by
      simp only [jeq] at h
      exact congrArg JVal.obj (jeqObj_sound a b h)
  | .obj a, .null, h => by simp [jeq] at h
  | .obj a, .boolean _, h => by simp [jeq] at h
  | .obj a, .num _, h => by simp [jeq] at h
  | .obj a, .str _, h => by simp [jeq] at h
  | .obj a, .arr _, h => by simp [jeq] at h

theorem jeqArr_sound : ∀ a b, jeqArr a b = true → a = b
  | [], [], _ => rfl
  | [], _ :: _, h => by simp [jeqArr] at h
  | _ :: _, [], h => by simp [jeqArr] at h
  | x :: xs, y :: ys, h => by
      simp only [jeqArr, Bool.and_eq_true] at h
      rw [jeq_sound x y h.1, jeqArr_sound xs ys h.2]

theorem jeqObj_sound : ∀ a b, jeqObj a b = true → a = b
  | [], [], _ => rfl
  | [], _ :: _, h => by simp [jeqObj] at h
  | _ :: _, [], h => by simp [jeqObj] at h
  | (k, v) :: xs, (l, w) :: ys, h => by
      simp only [jeqObj, Bool.and_eq_true] at h
      obtain ⟨⟨hk, hv⟩, ht⟩ := h
      rw [jeq_sound v w hv, jeqObj_sound xs ys ht, beq_iff_eq.mp hk]

end

instance : DecidableEq JVal := fun a b =>
  if h : jeq a b = true then isTrue (jeq_sound a b h)
  else isFalse (fun he => h (he ▸ jeq_refl a))

/-! ## Association lists: the model of python dictionaries

Python dictionaries preserve insertion order; assignment to an existing key
keeps its position, assignment to a fresh key appends.  All dictionaries of the
client (patches, callbacks, subscriber, controllers) are modelled as association
lists with these update rules. -/

/-- Dictionary lookup, returning none when the key is absent. -/
def aget {α β : Type} [DecidableEq α] : List (α × β) → α → Option β
  | [], _ => none
  | (k, v) :: r, q => if k = q then some v else aget r q

/-- Dictionary assignment d[k] = v: replace in place, or append when fresh. -/
def aset {α β : Type} [DecidableEq α] : List (α × β) → α → β → List (α × β)
  | [], k, v => [(k, v)]
  | (k2, v2) :: r, k, v => if k2 = k then (k, v) :: r else (k2, v2) :: aset r k v

/-- Dictionary deletion del d[k]: removes the first entry with the key. -/
def aerase {α β : Type} [DecidableEq α] : List (α × β) → α → List (α × β)
  | [], _ => []
  | (k2, v2) :: r, k => if k2 = k then r else (k2, v2) :: aerase r k

/-- Membership test k in d on a python dictionary. -/
def hasKey {α β : Type} [DecidableEq α] (l : List (α × β)) (k : α) : Bool :=
  (aget l k).isSome

/-- Apply a list of assignments in order (models a burst of dictionary
writes performed by other coroutines during an await point). -/
def asetAll {α β : Type} [DecidableEq α] (l : List (α × β)) (ups : List (α × β)) :
    List (α × β) :=
  ups.foldl (fun acc p => aset acc p.1 p.2) l

theorem aget_aset {α β : Type} [DecidableEq α] (l : List (α × β)) (k q : α) (v : β) :
    aget (aset l k v) q = if k = q then some v else aget l q := by
  induction l with
  | nil => simp [aset, aget]
  | cons p r ih =>
    obtain ⟨k2, v2⟩ := p
    by_cases h2 : k2 = k
    · subst h2
      by_cases h3 : k2 = q <;> simp [aset, aget, h3]
    · by_cases h3 : k2 = q
      · subst h3
        have hkq : ¬ (k = k2) := fun h => h2 h.symm
        simp [aset, aget, h2, hkq]
      · simp [aset, aget, h2, h3, ih]

theorem mem_keys_of_aget_isSome {α β : Type} [DecidableEq α]
    {l : List (α × β)} {q : α} (h : (aget l q).isSome) : q ∈ l.map Prod.fst := by
  induction l with
  | nil => simp [aget] at h
  | cons p r ih =>
    obtain ⟨k, v⟩ := p
    by_cases h2 : k = q
    · subst h2; simp
    · simp only [aget, if_neg h2] at h
      simpa using Or.inr (ih h)

theorem aget_aerase_ne {α β : Type} [DecidableEq α] (l : List (α × β)) (k q : α)
    (h : q ≠ k) : aget (aerase l k) q = aget l q := by
  induction l with
  | nil => simp [aerase]
  | cons p r ih =>
    obtain ⟨k2, v2⟩ := p
    by_cases h2 : k2 = k
    · subst h2
      have hq : ¬ (k2 = q) := fun hh => h hh.symm
      simp [aerase, aget, hq]
    · by_cases h3 : k2 = q
      · subst h3
        simp [aerase, aget, h2]
      · simp [aerase, aget, h2, h3, ih]

theorem aget_aerase_self {α β : Type} [DecidableEq α] (l : List (α × β)) (k : α)
    (hnd : (l.map Prod.fst).Nodup) : aget (aerase l k) k = none := by
  induction l with
  | nil => simp [aerase, aget]
  | cons p r ih =>
    obtain ⟨k2, v2⟩ := p
    simp only [List.map_cons, List.nodup_cons] at hnd
    by_cases h2 : k2 = k
    · subst h2
      simp only [aerase, if_pos rfl]
      cases h3 : aget r k2 with
      | none => exact h3
      | some w => exact absurd (mem_keys_of_aget_isSome (by simp [h3])) hnd.1
    · simp [aerase, if_neg h2, aget, if_neg h2, ih hnd.2]

theorem keys_aerase_subset {α β : Type} [DecidableEq α] (l : List (α × β)) (k q : α)
    (h : q ∈ (aerase l k).map Prod.fst) : q ∈ l.map Prod.fst := by
  induction l with
  | nil => simp [aerase] at h
  | cons p r ih =>
    obtain ⟨k2, v2⟩ := p
    by_cases h2 : k2 = k
    · subst h2
      simp only [aerase, if_pos rfl] at h
      simpa using Or.inr h
    · simp only [aerase, if_neg h2, List.map_cons, List.mem_cons] at h ⊢
      rcases h with h | h
      · exact Or.inl h
      · exact Or.inr (ih h)

theorem nodup_keys_aerase {α β : Type} [DecidableEq α] (l : List (α × β)) (k : α)
    (hnd : (l.map Prod.fst).Nodup) : ((aerase l k).map Prod.fst).Nodup := by
  induction l with
  | nil => simp [aerase]
  | cons p r ih =>
    obtain ⟨k2, v2⟩ := p
    simp only [List.map_cons, List.nodup_cons] at hnd
    by_cases h2 : k2 = k
    · subst h2
      simp only [aerase, if_pos rfl]
      exact hnd.2
    · simp only [aerase, if_neg h2, List.map_cons, List.nodup_cons]
      exact ⟨fun hm => hnd.1 (keys_aerase_subset r k k2 hm), ih hnd.2⟩

theorem mem_keys_aset {α β : Type} [DecidableEq α] (l : List (α × β)) (k q : α) (v : β) :
    q ∈ (aset l k v).map Prod.fst → q ∈ l.map Prod.fst ∨ q = k := by
  induction l with
  | nil =>
    intro h
    simp [aset] at h
    exact Or.inr h
  | cons p r ih =>
    obtain ⟨k2, v2⟩ := p
    intro h
    by_cases h2 : k2 = k
    · simp only [aset] at h
      rw [if_pos h2] at h
      subst h2
      simp only [List.map_cons, List.mem_cons] at h
      simp only [List.map_cons, List.mem_cons]
      rcases h with h | h
      · exact Or.inr h
      · exact Or.inl (Or.inr h)
    · simp only [aset] at h
      rw [if_neg h2] at h
      simp only [List.map_cons, List.mem_cons] at h
      simp only [List.map_cons, List.mem_cons]
      rcases h with h | h
      · exact Or.inl (Or.inl h)
      · rcases ih h with h3 | h3
        · exact Or.inl (Or.inr h3)
        · exact Or.inr h3

theorem nodup_keys_aset {α β : Type} [DecidableEq α] (l : List (α × β)) (k : α) (v : β)
    (hnd : (l.map Prod.fst).Nodup) : ((aset l k v).map Prod.fst).Nodup := by
  induction l with
  | nil => simp [aset]
  | cons p r ih =>
    obtain ⟨k2, v2⟩ := p
    simp only [List.map_cons, List.nodup_cons] at hnd
    by_cases h2 : k2 = k
    · subst h2
      simpa [aset] using hnd
    · simp only [aset, if_neg h2, List.map_cons, List.nodup_cons]
      refine ⟨fun hm => ?_, ih hnd.2⟩
      rcases mem_keys_aset r k k2 v hm with h | h
      · exact hnd.1 h
      · exact h2 h

theorem aget_asetAll_isSome {α β : Type} [DecidableEq α] (ups l : List (α × β)) (q : α)
    (h : (aget l q).isSome) : (aget (asetAll l ups) q).isSome := by
  induction ups generalizing l with
  | nil => simpa [asetAll]
  | cons p r ih =>
    obtain ⟨k, v⟩ := p
    have h2 : (aget (aset l k v) q).isSome := by
      rw [aget_aset]
      by_cases h3 : k = q
      · simp [h3]
      · simpa [if_neg h3]
    simpa [asetAll] using ih (aset l k v) h2

theorem nodup_keys_asetAll {α β : Type} [DecidableEq α] (ups l : List (α × β))
    (hnd : (l.map Prod.fst).Nodup) : ((asetAll l ups).map Prod.fst).Nodup := by
  induction ups generalizing l with
  | nil => simpa [asetAll]
  | cons p r ih =>
    simpa [asetAll] using ih (aset l p.1 p.2) (nodup_keys_aset l p.1 p.2 hnd)

/-! ## Python value semantics used by client.py -/

/-- Errors raised by the modelled python code. -/
inductive PyErr where
  | keyError : String → PyErr
  | attributeError : String → PyErr
  | typeError : PyErr
  | exception : String → PyErr
  | apiError : String → PyErr
  | connectionClosed : PyErr
  deriving DecidableEq, Repr

/-- Python truthiness of a JSON value (used by the guard in handle_messages). -/
def truthy : JVal → Bool
  | .null => false
  | .boolean b => b
  | .num i => i != 0
  | .str s => s != ""
  | .arr l => !l.isEmpty
  | .obj l => !l.isEmpty

/-- Indexing v[k] with a string key: returns the value of an object key and
raises KeyError when the key is absent; indexing a non-object with a string
raises TypeError. -/
def pyIndex (v : JVal) (k : String) : Except PyErr JVal :=
  match v with
  | .obj l =>
    match aget l k with
    | some w => .ok w
    | none => .error (.keyError k)
  | _ => .error .typeError

def listHasInfix : List Char → List Char → Bool
  | _, [] => true
  | [], _ :: _ => false
  | c :: rest, sub => sub.isPrefixOf (c :: rest) || listHasInfix rest sub

/-- The python membership test k in v: key lookup on objects, element search on
arrays, substring search on strings, TypeError otherwise. -/
def jcontains (v : JVal) (k : String) : Except PyErr Bool :=
  match v with
  | .obj l => .ok (hasKey l k)
  | .arr l => .ok (l.contains (.str k))
  | .str s => .ok (listHasInfix s.toList k.toList)
  | _ => .error .typeError

/-- Assignment v[k] = w on an object (messages are dictionaries when this is
applied; on other values the source would raise, which no claim exercises). -/
def jset (v : JVal) (k : String) (w : JVal) : JVal :=
  match v with
  | .obj l => .obj (aset l k w)
  | x => x

/-- Rendering of a JSON value inside an f-string.  Container reprs are
abbreviated; no claim depends on their exact text. -/
def pyStr : JVal → String
  | .null => "None"
  | .boolean true => "True"
  | .boolean false => "False"
  | .num i => toString i
  | .str s => s
  | .arr _ => "<list>"
  | .obj _ => "<dict>"

/-- Rendering str(e) of an exception.  Exact quoting of python reprs is
abbreviated; no claim depends on it. -/
def pyErrStr : PyErr → String
  | .keyError k => k
  | .attributeError a => a
  | .typeError => "TypeError"
  | .exception s => s
  | .apiError s => s
  | .connectionClosed => "ConnectionClosed"

/-! ## The client state (fields of Client.__init__ in client.py) -/

/-- A local controller object: the set of attribute names that resolve to
methods (hasattr), the arity reported by inspect.getfullargspec for each
method, and the effect of invoking a method on positional arguments. -/
structure Controller where
  actions : List String
  arity : String → Nat
  run : String → List JVal → Except PyErr JVal

/-- The data captured by the subscriber closure created in register_controller:
the controller name and the controller object. -/
structure SubEntry where
  cname : String
  controller : Controller

/-- Tasks scheduled onto the event loop with loop.create_task. -/
inductive SpawnedTask where
  | reconnect
  | handleLoop
  | sendLoop
  deriving DecidableEq, Repr

/-- Observable events of the inbound dispatch step: invoking a subscription
handler for id n, and resolving the pending-call future of id n with a
message (callbacks[id].set_result(res)). -/
inductive REvent where
  | subInvoked : Nat → REvent
  | resolved : Nat → JVal → REvent

/-- The mutable state of Client.  callbacks holds the identifiers that own a
pending future; subscriber maps identifiers to their handler closures; queue
is the outbound queue of json messages; patches is the keyed patch buffer;
connecting models the self.connecting future (none = pending, some r =
resolved with result r); conn models self.connection (none = attribute not
set, some c = connection object whose closed property is c); loopRunning
models whether the event loop is still running. -/
structure Client where
  message_id : Nat
  callbacks : List Nat
  subscriber : List (Nat × SubEntry)
  stopping : Bool
  queue : List JVal
  controllers : List (String × Controller)
  patches : List (String × JVal)
  offline : Bool
  connecting : Option Bool
  conn : Option Bool
  loopRunning : Bool

/-- The state established by Client.__init__ (plus the pending connecting
future created in run). -/
def initClient : Client where
  message_id := 0
  callbacks := []
  subscriber := []
  stopping := false
  queue := []
  controllers := []
  patches := []
  offline := false
  connecting := none
  conn := none
  loopRunning := true

/-! ## Message correlator: _message and _subscribe -/

/-- Client._message with no_response=True: takes the next identifier, stamps it
into the message and appends the message to the outbound queue.  No pending
callback is created. -/
def _message_no_response (st : Client) (m : JVal) : Client :=
  let id := st.message_id + 1
  { st with message_id := id, queue := st.queue ++ [jset m "id" (.num id)] }

/-- Client._message with no_response=False: additionally stores a pending
future under the new identifier before enqueueing. -/
def _message_call (st : Client) (m : JVal) : Client × Nat :=
  let id := st.message_id + 1
  ({ st with
      message_id := id
      callbacks := st.callbacks ++ [id]
      queue := st.queue ++ [jset m "id" (.num id)] }, id)

/-- Client._subscribe: takes the next identifier, stamps it into the message,
stores the subscription handler under it and enqueues the message. -/
def _subscribe (st : Client) (m : JVal) (entry : SubEntry) : Client × Nat :=
  let id := st.message_id + 1
  ({ st with
      message_id := id
      subscriber := st.subscriber ++ [(id, entry)]
      queue := st.queue ++ [jset m "id" (.num id)] }, id)

/-- Client.register_controller: stores the controller in the registry, then
subscribes the peerController/register message with the subscriber closure.
The function returns after _subscribe has enqueued the registration; no
response is awaited here (the await of self.connecting inside _subscribe is
modelled as already resolved, as it is whenever messages flow). -/
def register_controller (st : Client) (name : String) (c : Controller) : Client :=
  let st1 := { st with controllers := aset st.controllers name c }
  (_subscribe st1
    (.obj [("name", .str "peerController/register"), ("controllerName", .str name)])
    ⟨name, c⟩).1

/-- Client.patch: a no-op when offline or stopping, otherwise last-write-wins
into the patch buffer. -/
def patch (st : Client) (path : String) (v : JVal) : Client :=
  if st.offline then st
  else if st.stopping then st
  else { st with patches := aset st.patches path v }

/-- Outcome of running Client._action up to its suspension point. -/
inductive ActionStep where
  | blocked
  | done : Option JVal → Client → ActionStep
  | raised : PyErr → Client → ActionStep
  | awaiting : Nat → Client → ActionStep

/-- Client._action up to the await of the response: blocks on the connecting
future when it is pending, returns None immediately when offline, raises
during shutdown and on empty controller or action names, and otherwise
registers a pending call and awaits its response. -/
def _action (st : Client) (controller act : String) (args : List JVal)
    (lock allowInShutdown : Bool) : ActionStep :=
  if lock ∧ st.connecting = none then .blocked
  else if st.offline then .done none st
  else if st.stopping ∧ ¬ allowInShutdown then
    .raised (.exception "In shutdown: actions disallowed") st
  else if controller = "" then .raised (.exception "No controller given") st
  else if act = "" then .raised (.exception "No action given") st
  else
    let p := _message_call st
      (.obj [("name", .str "action"), ("controller", .str controller),
             ("action", .str act), ("args", .arr args), ("timeout", .num 60)])
    .awaiting p.2 p.1

/-- One identifier-assigning correlator operation: a call via _message or a
subscription via _subscribe. -/
inductive CorrOp where
  | call : JVal → CorrOp
  | sub : JVal → SubEntry → CorrOp

/-- Run a sequence of correlator operations, collecting the identifiers they
assign in order. -/
def runOps : Client → List CorrOp → Client × List Nat
  | st, [] => (st, [])
  | st, op :: rest =>
    let p := match op with
      | .call m => _message_call st m
      | .sub m e => _subscribe st m e
    let q := runOps p.1 rest
    (q.1, p.2 :: q.2)

/-! ## Outbound message shapes built by client.py -/

/-- The peer error response dictionary literal used in register_controller. -/
def peerErrMsg (cname : String) (clientId dataId : JVal) (err : String) : JVal :=
  .obj [("name", .str "peerController/message"), ("controllerName", .str cname),
        ("clientId", clientId),
        ("data", .obj [("type", .str "error"), ("id", dataId), ("stack", .null),
                       ("entityName", .str "@error:default"), ("error", .str err)])]

/-- The parameters list built from the reflected argument names: one entry of
type any named with a hash and the position index per argument. -/
def paramList (n : Nat) : List JVal :=
  (List.range n).map (fun i => .obj [("type", .str "any"), ("name", .str ("#" ++ toString i))])

/-- The actionTypes/result response dictionary literal. -/
def actionTypesMsg (cname : String) (clientId dataId : JVal) (n : Nat) : JVal :=
  .obj [("name", .str "peerController/message"), ("controllerName", .str cname),
        ("clientId", clientId),
        ("data", .obj [("type", .str "actionTypes/result"), ("id", dataId),
                       ("parameters", .arr (paramList n)),
                       ("returnType", .obj [("type", .str "any"), ("name", .str "result")])])]

/-- The next/json success response dictionary literal. -/
def nextJsonMsg (cname : String) (clientId dataId result : JVal) : JVal :=
  .obj [("name", .str "peerController/message"), ("controllerName", .str cname),
        ("clientId", clientId),
        ("data", .obj [("type", .str "next/json"), ("id", dataId),
                       ("encoding", .obj [("name", .str "r"), ("type", .str "any")]),
                       ("next", result)])]

/-- The batched patch call sent by send_messages: an action call for controller
job, action patchJob, whose single argument is the snapshot of the patch
buffer.  Note that it is sent raw over the connection and therefore carries no
id key and registers no pending callback. -/
def patchJobMessage (send : List (String × JVal)) : JVal :=
  .obj [("name", .str "action"), ("controller", .str "job"), ("action", .str "patchJob"),
        ("args", .arr [.obj send]), ("timeout", .num 60)]

/-! ## The subscriber closure of register_controller

The closure receives each inbound message delivered to the registration
identifier.  Python mutations performed before an exception persist, so every
step returns the updated state together with the optionally raised error. -/

/-- The on_done disposer: del self.subscriber[message_id]. -/
def subDel (st : Client) (k : Nat) : Client × Option PyErr :=
  if hasKey st.subscriber k then
    ({ st with subscriber := aerase st.subscriber k }, none)
  else (st, some (.keyError (toString k)))

/-- del self.controllers[name]. -/
def ctrlDel (st : Client) (name : String) : Client × Option PyErr :=
  if hasKey st.controllers name then
    ({ st with controllers := aerase st.controllers name }, none)
  else (st, some (.keyError name))

/-- Body of the branch for a requested action that the controller object does
not have: the error text interpolates the key action of the OUTER message
(exactly as the source does, even though the requested action name lives under
data), then the error response is built from the message clientId and the data
id and enqueued without expecting a response. -/
def missingActionRespond (entry : SubEntry) (st : Client) (message data : JVal) :
    Client × Option PyErr :=
  match pyIndex message "action" with
  | .error e => (st, some e)
  | .ok outerAct =>
    match pyIndex message "clientId" with
    | .error e => (st, some e)
    | .ok clientId =>
      match pyIndex data "id" with
      | .error e => (st, some e)
      | .ok dataId =>
        (_message_no_response st (peerErrMsg entry.cname clientId dataId
          ("Requested action " ++ pyStr outerAct ++ " not available in " ++ entry.cname)),
         none)

/-- Body of the actionTypes branch: reflect the arity via
inspect.getfullargspec (getattr raises AttributeError when the method is
missing) and answer with an actionTypes/result payload. -/
def actionTypesRespond (entry : SubEntry) (st : Client) (message data : JVal)
    (actName : String) : Client × Option PyErr :=
  if entry.controller.actions.contains actName then
    match pyIndex message "clientId" with
    | .error e => (st, some e)
    | .ok clientId =>
      match pyIndex data "id" with
      | .error e => (st, some e)
      | .ok dataId =>
        (_message_no_response st
          (actionTypesMsg entry.cname clientId dataId (entry.controller.arity actName)),
         none)
  else (st, some (.attributeError actName))

/-- The body of the try block of the action branch: getattr raises
AttributeError when the method is missing, then the positional arguments are
looked up and the method invoked, and the success response is built from the
message clientId and the data id.  The computation yields the next/json
response to enqueue, or the exception the except clause catches. -/
def invokeAttempt (entry : SubEntry) (message data : JVal) (actName : String) :
    Except PyErr JVal := do
  let r ←
    if entry.controller.actions.contains actName then do
      let args ← pyIndex data "args"
      match args with
      | .arr l => entry.controller.run actName l
      | _ => Except.error .typeError
    else Except.error (.attributeError actName)
  let clientId ← pyIndex message "clientId"
  let dataId ← pyIndex data "id"
  Except.ok (nextJsonMsg entry.cname clientId dataId r)

def invokeRespond (entry : SubEntry) (st : Client) (message data : JVal)
    (actName : String) : Client × Option PyErr :=
  match invokeAttempt entry message data actName with
  | .ok m => (_message_no_response st m, none)
  | .error e =>
    match pyIndex message "clientId" with
    | .error e2 => (st, some e2)
    | .ok clientId =>
      match pyIndex data "id" with
      | .error e2 => (st, some e2)
      | .ok dataId =>
        (_message_no_response st (peerErrMsg entry.cname clientId dataId (pyErrStr e)),
         none)

/-- Sequencing of two python statements: when the first raised, the rest of
the handler is skipped and the state it left behind is kept; otherwise the
second statement runs on the resulting state. -/
def andThenE (x : Client × Option PyErr) (f : Client → Client × Option PyErr) :
    Client × Option PyErr :=
  match x with
  | (st1, some e) => (st1, some e)
  | (st1, none) => f st1

/-- The peerController/message branch of the subscriber closure: the
missing-action check runs first, then the actionTypes branch, then the action
branch, each on the state left by the previous one, stopping at the first
raised exception. -/
def peerMessageStep (entry : SubEntry) (st : Client) (message : JVal) :
    Client × Option PyErr :=
  match pyIndex message "data" with
  | .error e => (st, some e)
  | .ok data =>
    match pyIndex data "action" with
    | .error e => (st, some e)
    | .ok act =>
      match act with
      | .str actName =>
        andThenE
          (if entry.controller.actions.contains actName then (st, none)
           else missingActionRespond entry st message data)
          (fun st1 =>
            match pyIndex data "name" with
            | .error e => (st1, some e)
            | .ok nm =>
              andThenE
                (if nm = .str "actionTypes"
                 then actionTypesRespond entry st1 message data actName
                 else (st1, none))
                (fun st2 =>
                  if nm = .str "action" then invokeRespond entry st2 message data actName
                  else (st2, none)))
      | _ => (st, some .typeError)

/-- The subscriber closure defined inside register_controller, applied to one
inbound message.  On a message of type error it disposes the subscription,
removes the registry entry and raises; an ack is ignored; a
peerController/message is dispatched to the peer branch. -/
def subscriberStep (subId : Nat) (entry : SubEntry) (st : Client) (message : JVal) :
    Client × Option PyErr :=
  match pyIndex message "type" with
  | .error e => (st, some e)
  | .ok ty =>
    if ty = .str "error" then
      match subDel st subId with
      | (st1, some e) => (st1, some e)
      | (st1, none) =>
        match ctrlDel st1 entry.cname with
        | (st2, some e) => (st2, some e)
        | (st2, none) =>
          match pyIndex message "error" with
          | .error e => (st2, some e)
          | .ok (.str s) => (st2, some (.exception ("Register controller error: " ++ s)))
          | .ok _ => (st2, some .typeError)
    else if ty = .str "peerController/message" then
      peerMessageStep entry st message
    else (st, none)

/-! ## Inbound dispatch: one iteration of handle_messages -/

/-- The membership test of an inbound id against the callbacks dictionary. -/
def cbFind (cbs : List Nat) (idv : JVal) : Option Nat :=
  match idv with
  | .num i => cbs.find? (fun n => (n : Int) == i)
  | _ => none

/-- The membership test of an inbound id against the subscriber dictionary. -/
def subFind (subs : List (Nat × SubEntry)) (idv : JVal) : Option (Nat × SubEntry) :=
  match idv with
  | .num i => subs.find? (fun p => ((p.1 : Nat) : Int) == i)
  | _ => none

/-- del on the callbacks dictionary. -/
def removeNatFirst : List Nat → Nat → List Nat
  | [], _ => []
  | x :: r, n => if x = n then r else x :: removeNatFirst r n

/-- One iteration of the receive loop body of handle_messages, applied to one
parsed inbound message.  The subscriber table is consulted first, then the
callbacks table; a raised error aborts the iteration (and in the source kills
the receive-loop task) while keeping the state mutations already made. -/
def handle_messages_step (st : Client) (res : JVal) : Client × List REvent × Option PyErr :=
  if truthy res then
    match jcontains res "id" with
    | .error e => (st, [], some e)
    | .ok false => (st, [], none)
    | .ok true =>
      match pyIndex res "id" with
      | .error e => (st, [], some e)
      | .ok idv =>
        match subFind st.subscriber idv with
        | some (n, entry) =>
          match subscriberStep n entry st res with
          | (st1, some e) => (st1, [.subInvoked n], some e)
          | (st1, none) =>
            match cbFind st1.callbacks idv with
            | some m =>
              ({ st1 with callbacks := removeNatFirst st1.callbacks m },
               [.subInvoked n, .resolved m res], none)
            | none => (st1, [.subInvoked n], none)
        | none =>
          match cbFind st.callbacks idv with
          | some m =>
            ({ st with callbacks := removeNatFirst st.callbacks m },
             [.resolved m res], none)
          | none => (st, [], none)
  else (st, [], none)

/-! ## Outbound dispatcher: send_messages

Every connection.send in an iteration is an await point.  Two oracles, both
indexed by the position of the send within the iteration, supply what the
environment does there: oracle gives the outcome of the send itself (ok for a
completed send, closed for a raised ConnectionClosed, apiErr for a raised
ApiError — the exception class the patch branch catches explicitly), and enqA
gives the messages that concurrently running coroutines append to the live
outbound queue during that await.  An enqueue during a drain await therefore
lands after the iteration snapshot was taken but before the patch batch is
built, exactly as in the source.  Patch writes by other coroutines during the
drain awaits are folded into the patch buffer of the iteration start state:
nothing reads the patch buffer between the start of the iteration and the
emptiness check followed immediately (with no intervening await) by the
snapshot copy, so the two are indistinguishable.  Patch writes during the
await of the patch send itself are supplied as the ip argument. -/

inductive SendOutcome where
  | ok
  | closed
  | apiErr
  deriving DecidableEq, Repr

/-- list.remove(m): removes the first element equal to m. -/
def removeFirst : List JVal → JVal → List JVal
  | [], _ => []
  | x :: r, m => if x = m then r else x :: removeFirst r m

/-- The queue-draining for loop of send_messages: iterate over the snapshot q,
send each message, and remove it from the live queue after a completed send.
During the await of send number i the messages enqA i are appended to the live
queue by other coroutines; they are appended whether the send completes or
raises, and a raised send leaves its message in the queue.  Returns the
transmitted trace, the remaining live queue, the optionally raised exception
and the index of the next send. -/
def drainQ (oracle : Nat → SendOutcome) (enqA : Nat → List JVal) :
    Nat → List JVal → List JVal → List JVal × List JVal × Option PyErr × Nat
  | i, [], queue => ([], queue, none, i)
  | i, m :: rest, queue =>
    match oracle i with
    | .ok =>
      match drainQ oracle enqA (i + 1) rest (removeFirst (queue ++ enqA i) m) with
      | (tr, q1, e, j) => (m :: tr, q1, e, j)
    | .closed => ([], queue ++ enqA i, some .connectionClosed, i)
    | .apiErr => ([], queue ++ enqA i, some (.apiError "send failed"), i)

/-- The concatenation of the messages enqueued during sends i, i+1, ...,
i+n-1. -/
def enqConcat (enqA : Nat → List JVal) : Nat → Nat → List JVal
  | _, 0 => []
  | i, n + 1 => enqA i ++ enqConcat enqA (i + 1) n

/-- The removal loop after a completed patch send: for every key of the
snapshot, delete it from the live patch buffer if the live value still equals
the snapshotted value.  Indexing the live buffer raises KeyError when the key
has vanished, mirroring the source. -/
def patchDel : List (String × JVal) → List (String × JVal) →
    List (String × JVal) × Option PyErr
  | [], patches => (patches, none)
  | (k, v) :: rest, patches =>
    match aget patches k with
    | none => (patches, some (.keyError k))
    | some cur => patchDel rest (if cur = v then aerase patches k else patches)

/-- Result of one iteration of the send_messages while loop: next means the
iteration reached the trailing sleep and the loop continues; raised means an
exception propagated out of send_messages (the drain loop re-raises transport
errors); returned means the iteration executed one of the return statements of
the patch branch (ConnectionClosed or ApiError caught). -/
inductive IterResult where
  | next : Client → List JVal → IterResult
  | raised : PyErr → Client → List JVal → IterResult
  | returned : Client → List JVal → IterResult

/-- One iteration of the send_messages loop: snapshot and drain the queue
(messages enqueued during the drain awaits, enqA 0 .. enqA (n-1), join the
live queue without entering the snapshot), then, only if the patch buffer is
non-empty, snapshot it, transmit the batched patchJob call and remove the
acknowledged-by-transmission entries whose value did not change during the
send await.  During the await of the patch send — send number n, the queue
length — the messages enqA n are appended to the live queue and the patch
writes ip land in the live patch buffer. -/
def send_messages_iter (st : Client) (oracle : Nat → SendOutcome)
    (enqA : Nat → List JVal) (ip : List (String × JVal)) : IterResult :=
  match drainQ oracle enqA 0 st.queue st.queue with
  | (tr, q1, some e, _) => .raised e { st with queue := q1 } tr
  | (tr, q1, none, i) =>
    if st.patches = [] then .next { st with queue := q1 } tr
    else
      match oracle i with
      | .ok =>
        let send := st.patches
        let live := asetAll st.patches ip
        match patchDel send live with
        | (p2, none) =>
          .next { st with queue := q1 ++ enqA i, patches := p2 }
            (tr ++ [patchJobMessage send])
        | (p2, some e) =>
          .raised e { st with queue := q1 ++ enqA i, patches := p2 }
            (tr ++ [patchJobMessage send])
      | .closed =>
        .returned { st with queue := q1 ++ enqA i, patches := asetAll st.patches ip } tr
      | .apiErr =>
        .returned { st with queue := q1 ++ enqA i, patches := asetAll st.patches ip } tr

/-- How a run of the send_messages loop ended. -/
inductive LoopEnd where
  | fuelOut : Client → LoopEnd
  | returnedExit : Client → LoopEnd
  | raisedExit : PyErr → Client → LoopEnd

/-- Fuel-indexed run of the send_messages loop.  Before iteration k the
messages enq k enqueued by other coroutines during the trailing sleep of the
previous iteration are appended to the queue; oracle k, enqA k and ip k drive
the sends, mid-iteration enqueues and concurrent patch writes of that
iteration.  The loop stops when an iteration returns or raises; the collected
trace is everything transmitted on the connection. -/
def send_messages_loop (oracle : Nat → Nat → SendOutcome)
    (enqA : Nat → Nat → List JVal) (ip : Nat → List (String × JVal))
    (enq : Nat → List JVal) : Nat → Nat → Client → List JVal × LoopEnd
  | 0, _, st => ([], .fuelOut st)
  | fuel + 1, k, st =>
    let stE := { st with queue := st.queue ++ enq k }
    match send_messages_iter stE (oracle k) (enqA k) (ip k) with
    | .next st1 tr =>
      let rest := send_messages_loop oracle enqA ip enq fuel (k + 1) st1
      (tr ++ rest.1, rest.2)
    | .raised e st1 tr => (tr, .raisedExit e st1)
    | .returned st1 tr => (tr, .returnedExit st1)

/-! ## Shutdown sequence -/

/-- The sleep of the send_messages loop, asyncio.sleep(0.2), in milliseconds. -/
def dispatcherSleepMs : Nat := 200

/-- The polling sleep of the stop_and_sync drain loop, asyncio.sleep(0.15), in
milliseconds. -/
def stopAndSyncPollMs : Nat := 150

/-- The terminal status patches written by stop_and_sync.  lastValue models
sys.last_value: none when the process exits normally, some true when the last
exception was a KeyboardInterrupt, some false for any other exception.  now
models datetime.utcnow().isoformat(). -/
def terminal_patches (st : Client) (lastValue : Option Bool) (now : String) : Client :=
  let p0 := aset st.patches "status" (.num 150)
  let p1 := aset p0 "ended" (.str now)
  let p2 := aset p1 "tasks.main.ended" (.str now)
  let p3 := aset p2 "tasks.main.status" (.num 500)
  let p4 := aset p3 "tasks.main.instances.0.ended" (.str now)
  let p5 := aset p4 "tasks.main.instances.0.status" (.num 500)
  let p6 :=
    match lastValue with
    | none => p5
    | some true =>
      aset (aset (aset p5 "status" (.num 200)) "tasks.main.status" (.num 550))
        "tasks.main.instances.0.status" (.num 550)
    | some false =>
      aset (aset (aset p5 "status" (.num 300)) "tasks.main.status" (.num 650))
        "tasks.main.instances.0.status" (.num 650)
  { st with stopping := true, patches := p6 }

/-- The drain loop of stop_and_sync: while the patch buffer or the queue is
non-empty, sleep for the poll interval.  During each sleep the concurrently
running send_messages task performs one iteration; the wait terminates (some)
exactly when both are empty, and hangs (none) when the fuel runs out or the
dispatcher task dies, since nothing could drain the buffers any more. -/
def syncWait (oracle : Nat → Nat → SendOutcome) (enqA : Nat → Nat → List JVal)
    (ip : Nat → List (String × JVal)) : Nat → Client → Option Client
  | 0, st => if st.patches = [] ∧ st.queue = [] then some st else none
  | f + 1, st =>
    if st.patches = [] ∧ st.queue = [] then some st
    else
      match send_messages_iter st (oracle f) (enqA f) (ip f) with
      | .next st1 _ => syncWait oracle enqA ip f st1
      | .raised _ _ _ => none
      | .returned _ _ => none

/-- await self.connection.close(): raises AttributeError when the connection
attribute was never set; closeOk supplies whether the closing handshake left
the closed property true. -/
def closeConnection (st : Client) (closeOk : Bool) : Except PyErr Client :=
  match st.conn with
  | none => .error (.attributeError "connection")
  | some _ => .ok { st with conn := some closeOk }

/-- Client.stop_and_sync: set stopping, write the terminal status patches,
poll until queue and patch buffer drain, then close the connection.  none
models the coroutine never completing (the drain condition never satisfied). -/
def stop_and_sync (st : Client) (lastValue : Option Bool) (now : String) (fuel : Nat)
    (oracle : Nat → Nat → SendOutcome) (enqA : Nat → Nat → List JVal)
    (ip : Nat → List (String × JVal)) (closeOk : Bool) :
    Option (Except PyErr Client) :=
  match syncWait oracle enqA ip fuel (terminal_patches st lastValue now) with
  | none => none
  | some st2 => some (closeConnection st2 closeOk)

/-- Client.shutdown: an immediate no-op return when offline; otherwise run
stop_and_sync to completion (promise.result() re-raises its exception), then
raise when the connection is not in the fully closed state, and finally stop
the event loop. -/
def shutdown (st : Client) (lastValue : Option Bool) (now : String) (fuel : Nat)
    (oracle : Nat → Nat → SendOutcome) (enqA : Nat → Nat → List JVal)
    (ip : Nat → List (String × JVal)) (closeOk : Bool) :
    Option (Except PyErr Client) :=
  if st.offline then some (.ok st)
  else
    match stop_and_sync st lastValue now fuel oracle enqA ip closeOk with
    | none => none
    | some (.error e) => some (.error e)
    | some (.ok st1) =>
      if st1.conn ≠ some true then some (.error (.exception "Connection still active"))
      else some (.ok { st1 with loopRunning := false })

/-! ## Connection establishment failure in user mode -/

/-- The failing branch of Client._connect in user mode: _connect first
snapshots the queue into queue_copy and clears it (the snapshot is dropped
because this branch returns before the restoring assignment at the end of
_connect); when websockets.connect raises, the client sets offline, prints a
notice, resolves the connecting future with False and returns.  No task is
scheduled: there is no retry and the receive and send loops are never
started. -/
def connect_user_fail (st : Client) : Client × List SpawnedTask :=
  ({ st with queue := [], offline := true, connecting := some false }, [])

/-- The failing branch of Client._connect_job: by contrast, job mode schedules
a reconnect task after a failed connect. -/
def connect_job_fail (st : Client) : Client × List SpawnedTask :=
  (st, [.reconnect])

/-! ## Dispatcher lemmas -/

theorem aget_none_of_not_mem {α β : Type} [DecidableEq α] {l : List (α × β)} {k : α}
    (h : k ∉ l.map Prod.fst) : aget l k = none := by
  cases hh : aget l k with
  | none => rfl
  | some w => exact absurd (mem_keys_of_aget_isSome (by simp [hh])) h

/-- When every send of the drain succeeds, the whole snapshot is transmitted
in order; starting from a live queue consisting of the snapshot followed by
earlier appends, what remains is those appends followed by everything enqueued
during the drain awaits. -/
theorem drainQ_ok (oracle : Nat → SendOutcome) (enqA : Nat → List JVal) :
    ∀ (q : List JVal) (i : Nat) (extra : List JVal),
      (∀ n, n < q.length → oracle (i + n) = .ok) →
      drainQ oracle enqA i q (q ++ extra)
        = (q, extra ++ enqConcat enqA i q.length, none, i + q.length) := by
  intro q
  induction q with
  | nil =>
    intro i extra h
    simp [drainQ, enqConcat]
  | cons m rest ih =>
    intro i extra h
    have h0 : oracle i = .ok := by simpa using h 0 (by simp)
    have hr := ih (i + 1) (extra ++ enqA i) (fun n hn => by
      have e : i + 1 + n = i + (n + 1) := by omega
      rw [e]
      exact h (n + 1) (by simpa using Nat.succ_lt_succ hn))
    have hrm : removeFirst (m :: (rest ++ (extra ++ enqA i))) m
        = rest ++ (extra ++ enqA i) := by
      simp [removeFirst]
    simp only [drainQ, h0, List.cons_append, List.append_assoc, hrm, hr, enqConcat,
      List.length_cons]
    have e2 : i + 1 + rest.length = i + (rest.length + 1) := by omega
    rw [e2]

/-- Draining against the live queue that equals the snapshot: everything of
the snapshot goes out and only the mid-drain appends remain. -/
theorem drainQ_ok_self (oracle : Nat → SendOutcome) (enqA : Nat → List JVal)
    (q : List JVal) (i : Nat)
    (h : ∀ n, n < q.length → oracle (i + n) = .ok) :
    drainQ oracle enqA i q q = (q, enqConcat enqA i q.length, none, i + q.length) := by
  have h2 := drainQ_ok oracle enqA q i [] h
  simpa using h2

/-- Characterization of the patch-buffer removal loop: it raises nothing and
removes exactly the snapshot keys whose live value still equals the
snapshotted value, leaving every other binding of the live buffer intact. -/
theorem patchDel_spec : ∀ (send patches : List (String × JVal)),
    (send.map Prod.fst).Nodup → (patches.map Prod.fst).Nodup →
    (∀ k, (aget send k).isSome → (aget patches k).isSome) →
    (patchDel send patches).2 = none ∧
    ∀ P, aget (patchDel send patches).1 P =
      if (aget send P).isSome ∧ aget patches P = aget send P then none
      else aget patches P := by
  intro send
  induction send with
  | nil =>
    intro patches _ _ _
    refine ⟨rfl, fun P => ?_⟩
    simp [patchDel, aget]
  | cons p rest ih =>
    obtain ⟨k, v⟩ := p
    intro patches hnds hndp hpres
    simp only [List.map_cons, List.nodup_cons] at hnds
    have hk : (aget patches k).isSome := hpres k (by simp [aget])
    obtain ⟨cur, hcur⟩ := Option.isSome_iff_exists.mp hk
    have hrestk : aget rest k = none := aget_none_of_not_mem hnds.1
    by_cases hcv : cur = v
    · subst hcv
      have hpres2 : ∀ k2, (aget rest k2).isSome → (aget (aerase patches k) k2).isSome := by
        intro k2 h2
        have hmem : k2 ∈ rest.map Prod.fst := mem_keys_of_aget_isSome h2
        have hne : k2 ≠ k := fun he => hnds.1 (he ▸ hmem)
        have hne2 : ¬ (k = k2) := fun he => hne he.symm
        rw [aget_aerase_ne patches k k2 hne]
        exact hpres k2 (by simp [aget, hne2, h2])
      have hih := ih (aerase patches k) hnds.2 (nodup_keys_aerase patches k hndp) hpres2
      have heq : patchDel ((k, cur) :: rest) patches = patchDel rest (aerase patches k) := by
        simp [patchDel, hcur]
      rw [heq]
      refine ⟨hih.1, fun P => ?_⟩
      rw [hih.2 P]
      by_cases hPk : P = k
      · subst hPk
        rw [hrestk, aget_aerase_self patches P hndp]
        simp [aget, hcur]
      · have hne3 : ¬ (k = P) := fun he => hPk he.symm
        have hgP : aget ((k, cur) :: rest) P = aget rest P := by
          simp [aget, hne3]
        rw [hgP, aget_aerase_ne patches k P hPk]
    · have hpres2 : ∀ k2, (aget rest k2).isSome → (aget patches k2).isSome := by
        intro k2 h2
        refine hpres k2 ?_
        by_cases he : k = k2 <;> simp [aget, he, h2]
      have hih := ih patches hnds.2 hndp hpres2
      have heq : patchDel ((k, v) :: rest) patches = patchDel rest patches := by
        simp [patchDel, hcur, hcv]
      rw [heq]
      refine ⟨hih.1, fun P => ?_⟩
      rw [hih.2 P]
      by_cases hPk : P = k
      · subst hPk
        rw [hrestk]
        simp [aget, hcur, hcv]
      · have hne3 : ¬ (k = P) := fun he => hPk he.symm
        have hgP : aget ((k, v) :: rest) P = aget rest P := by
          simp [aget, hne3]
        rw [hgP]

/-- A full send_messages iteration in which every send succeeds: the queue
snapshot is transmitted in order and drained, then the patch batch is
transmitted and the removal loop runs without raising. -/
theorem send_messages_iter_all_ok (st : Client) (oracle : Nat → SendOutcome)
    (enqA : Nat → List JVal) (ip : List (String × JVal))
    (hq : ∀ n, n < st.queue.length → oracle n = .ok)
    (hp : oracle st.queue.length = .ok)
    (hnd : (st.patches.map Prod.fst).Nodup)
    (hne : st.patches ≠ []) :
    send_messages_iter st oracle enqA ip
      = .next { st with
                  queue := enqConcat enqA 0 st.queue.length ++ enqA st.queue.length
                  patches := (patchDel st.patches (asetAll st.patches ip)).1 }
          (st.queue ++ [patchJobMessage st.patches]) := by
  have hd := drainQ_ok_self oracle enqA st.queue 0
    (fun n hn => by rw [Nat.zero_add]; exact hq n hn)
  rw [Nat.zero_add] at hd
  have hspec := patchDel_spec st.patches (asetAll st.patches ip) hnd
    (nodup_keys_asetAll ip st.patches hnd)
    (fun k hk => aget_asetAll_isSome ip st.patches k hk)
  have hpd : patchDel st.patches (asetAll st.patches ip)
      = ((patchDel st.patches (asetAll st.patches ip)).1, none) := by
    rw [← hspec.1]
  obtain ⟨p2, he2⟩ : ∃ p2, patchDel st.patches (asetAll st.patches ip) = (p2, none) :=
    ⟨_, hpd⟩
  simp [send_messages_iter, hd, hne, hp, he2]

/-- An oracle under which every send succeeds. -/
def okOracle : Nat → SendOutcome := fun _ => SendOutcome.ok

/-- An interleaving in which no message is enqueued during any send await. -/
def noEnqA : Nat → List JVal := fun _ => []

def c1M1 : JVal := .obj [("name", .str "log"), ("id", .num 1)]

def c1M2 : JVal := .obj [("name", .str "log2"), ("id", .num 2)]

def c1CeSt : Client :=
  { initClient with
      connecting := some true
      conn := some false
      queue := [c1M1]
      patches := [("status", .num 150)] }

/-- An interleaving in which one message is enqueued during the await of the
first drain send — after the queue snapshot was taken and before the patch
batch is built. -/
def c1EnqA : Nat → List JVal := fun n => if n = 0 then [c1M2] else []

/-- Claim C1 counterexample: the claim says a patch batch is never transmitted
while any non-patch message enqueued before the batch was built still awaits
transmission.  In this realizable interleaving a concurrent coroutine enqueues
a message during the await of the drain send — before the patch snapshot at
patches.copy() builds the batch — and the iteration still transmits the batch:
the trace ends with the batch while the message sits in the live queue,
unsent. -/
theorem c1_counterexample :
    send_messages_iter c1CeSt okOracle c1EnqA []
      = .next { c1CeSt with queue := [c1M2], patches := [] }
          [c1M1, patchJobMessage [("status", .num 150)]]
    ∧ c1M2 ∉ [c1M1, patchJobMessage [("status", .num 150)]] :=
  ⟨rfl, by decide⟩

/-- Claim C1 (amended): within each send_messages iteration in which every
send succeeds, the wire trace is exactly the messages of the queue snapshot
taken at the start of the iteration, in their enqueue order, followed by the
patch batch when the patch buffer is non-empty: the snapshot is fully drained
by successful sends before any patch batch is sent.  A message enqueued during
an await of the iteration — after the snapshot, even before the batch is
built — is not covered: it remains in the live queue while the batch is
transmitted and goes out in a later iteration (the remaining queue is exactly
those mid-iteration enqueues). -/
theorem c1_snapshot_drained_before_patch_batch (st : Client) (oracle : Nat → SendOutcome)
    (enqA : Nat → List JVal) (ip : List (String × JVal))
    (hok : ∀ n, oracle n = .ok)
    (hnd : (st.patches.map Prod.fst).Nodup) :
    ∃ st', send_messages_iter st oracle enqA ip
        = .next st' (st.queue ++ (if st.patches = [] then [] else [patchJobMessage st.patches]))
      ∧ st'.queue = enqConcat enqA 0 st.queue.length
          ++ (if st.patches = [] then [] else enqA st.queue.length) := by
  by_cases hp : st.patches = []
  · have hd := drainQ_ok_self oracle enqA st.queue 0
      (fun n hn => by rw [Nat.zero_add]; exact hok n)
    refine ⟨{ st with queue := enqConcat enqA 0 st.queue.length }, ?_, ?_⟩
    · rw [if_pos hp]
      simp [send_messages_iter, hd, hp]
    · simp [hp]
  · refine ⟨{ st with
        queue := enqConcat enqA 0 st.queue.length ++ enqA st.queue.length
        patches := (patchDel st.patches (asetAll st.patches ip)).1 }, ?_, ?_⟩
    · rw [if_neg hp]
      exact send_messages_iter_all_ok st oracle enqA ip (fun n _ => hok n) (hok _) hnd hp
    · simp [hp]

/-- Witness for the amended C1 at a concrete state with one snapshotted
message, one pending patch, and one message enqueued during the drain await:
the snapshot precedes the batch on the wire and exactly the mid-iteration
enqueue remains queued. -/
theorem c1_witness :
    (∀ n, okOracle n = SendOutcome.ok) ∧
    ((c1CeSt.patches.map Prod.fst).Nodup) ∧
    (∃ st', send_messages_iter c1CeSt okOracle c1EnqA []
        = .next st' (c1CeSt.queue ++
            (if c1CeSt.patches = [] then [] else [patchJobMessage c1CeSt.patches]))
      ∧ st'.queue = enqConcat c1EnqA 0 c1CeSt.queue.length
          ++ (if c1CeSt.patches = [] then [] else c1EnqA c1CeSt.queue.length)) :=
  ⟨fun _ => rfl, by decide,
   c1_snapshot_drained_before_patch_batch c1CeSt okOracle c1EnqA []
     (fun _ => rfl) (by decide)⟩

def c5St : Client :=
  { initClient with
      connecting := some true
      conn := some false
      patches := [("status", .num 150)] }

/-- Claim C5 counterexample: the claim says a PatchSet entry is removed only
after the service has acknowledged the patch call.  In a run of one
send_messages iteration no inbound message is processed at all, yet the entry
is gone immediately after the transmission; moreover the client holds no
pending callback, and the transmitted patch call carries no id key, so no
acknowledgment could even be correlated to it. -/
theorem c5_counterexample :
    send_messages_iter c5St okOracle noEnqA []
      = .next { c5St with patches := [] } [patchJobMessage [("status", .num 150)]]
    ∧ c5St.callbacks = []
    ∧ pyIndex (patchJobMessage [("status", .num 150)]) "id" = .error (.keyError "id") :=
  ⟨rfl, rfl, rfl⟩

/-- Claim C5 (amended): a PatchSet entry for path P is removed immediately
after the patch batch is transmitted, without awaiting any acknowledgment, and
only if the value currently stored for P still equals the value in the
transmitted snapshot; if a patch for P landed during the transmission await
and changed the value, the entry survives with the new value for the next
flush. -/
theorem c5_patch_removed_only_if_unchanged (st : Client) (oracle : Nat → SendOutcome)
    (enqA : Nat → List JVal) (ip : List (String × JVal)) (P : String)
    (hq : ∀ n, n < st.queue.length → oracle n = .ok)
    (hp : oracle st.queue.length = .ok)
    (hnd : (st.patches.map Prod.fst).Nodup)
    (hne : st.patches ≠ []) :
    ∃ st', send_messages_iter st oracle enqA ip
        = .next st' (st.queue ++ [patchJobMessage st.patches])
      ∧ aget st'.patches P =
          (if (aget st.patches P).isSome ∧ aget (asetAll st.patches ip) P = aget st.patches P
           then none else aget (asetAll st.patches ip) P) := by
  refine ⟨{ st with
      queue := enqConcat enqA 0 st.queue.length ++ enqA st.queue.length
      patches := (patchDel st.patches (asetAll st.patches ip)).1 },
    send_messages_iter_all_ok st oracle enqA ip hq hp hnd hne, ?_⟩
  have hspec := patchDel_spec st.patches (asetAll st.patches ip) hnd
    (nodup_keys_asetAll ip st.patches hnd)
    (fun k hk => aget_asetAll_isSome ip st.patches k hk)
  exact hspec.2 P

def c5WSt : Client :=
  { initClient with
      connecting := some true
      conn := some false
      patches := [("a", .num 1), ("b", .num 2)] }

/-- Witness for the amended C5 at a concrete state: path a is overwritten with
a new value during the transmission await and survives with it, while the
transmission succeeds. -/
theorem c5_witness :
    (∀ n, n < c5WSt.queue.length → okOracle n = SendOutcome.ok) ∧
    ((c5WSt.patches.map Prod.fst).Nodup) ∧ c5WSt.patches ≠ [] ∧
    (∃ st', send_messages_iter c5WSt okOracle noEnqA [("a", .num 9)]
        = .next st' (c5WSt.queue ++ [patchJobMessage c5WSt.patches])
      ∧ aget st'.patches "a" =
          (if (aget c5WSt.patches "a").isSome ∧
              aget (asetAll c5WSt.patches [("a", .num 9)]) "a" = aget c5WSt.patches "a"
           then none else aget (asetAll c5WSt.patches [("a", .num 9)]) "a")) :=
  ⟨fun _ _ => rfl, by decide, by decide,
   c5_patch_removed_only_if_unchanged c5WSt okOracle noEnqA [("a", .num 9)] "a"
     (fun _ _ => rfl) rfl (by decide) (by decide)⟩

/-- An interleaving with no concurrent patch writes. -/
def noIp : Nat → List (String × JVal) := fun _ => []

/-- An oracle for the loop under which every send of every iteration
succeeds. -/
def okOracle2 : Nat → Nat → SendOutcome := fun _ _ => SendOutcome.ok

/-- A loop interleaving in which no message is enqueued during any send await
of any iteration. -/
def noEnqA2 : Nat → Nat → List JVal := fun _ _ => []

def c4St : Client :=
  { initClient with
      connecting := some true
      conn := some false
      queue := [.obj [("name", .str "log"), ("id", .num 1)]]
      patches := [("epochs", .num 5)] }

def c4Oracle : Nat → Nat → SendOutcome := fun k n =>
  if k = 0 ∧ n = 1 then .apiErr else .ok

def c4Enq : Nat → List JVal := fun k =>
  if k = 1 then [.obj [("name", .str "log"), ("id", .num 2)]] else []

/-- Claim C4 counterexample: in iteration zero the queued message is sent and
the patch flush raises ApiError; the loop thereupon exits, so the message that
arrives for iteration one is never transmitted — the whole trace of the run is
the single first message.  This contradicts the claim that the dispatcher
continues to drain and send non-patch messages after a patch protocol error. -/
theorem c4_counterexample :
    (send_messages_loop c4Oracle noEnqA2 noIp c4Enq 5 0 c4St).1
      = [.obj [("name", .str "log"), ("id", .num 1)]]
    ∧ (JVal.obj [("name", .str "log"), ("id", .num 2)])
        ∉ (send_messages_loop c4Oracle noEnqA2 noIp c4Enq 5 0 c4St).1 := by
  constructor
  · rfl
  · decide

/-- Claim C4 (amended): when the patch flush raises an explicit protocol error
(ApiError), send_messages returns, terminating the dispatcher loop entirely:
patch flushing is disabled for the session, the failed patch entries are
retained, and message sending stops as well — no further iteration runs no
matter how much fuel remains, so messages enqueued later are never sent by
this loop. -/
theorem c4_apierror_stops_loop (st : Client) (oracle : Nat → Nat → SendOutcome)
    (enqA : Nat → Nat → List JVal) (ip : Nat → List (String × JVal))
    (enq : Nat → List JVal) (fuel k : Nat)
    (henq : enq k = [])
    (hq : ∀ n, n < st.queue.length → oracle k n = .ok)
    (hp : oracle k st.queue.length = .apiErr)
    (hne : st.patches ≠ []) :
    send_messages_loop oracle enqA ip enq (fuel + 1) k st
      = (st.queue,
         .returnedExit { st with
             queue := enqConcat (enqA k) 0 st.queue.length ++ enqA k st.queue.length
             patches := asetAll st.patches (ip k) }) := by
  have hd := drainQ_ok_self (oracle k) (enqA k) st.queue 0
    (fun n hn => by rw [Nat.zero_add]; exact hq n hn)
  rw [Nat.zero_add] at hd
  simp [send_messages_loop, henq, send_messages_iter, hd, hne, hp]

/-- Witness for the amended C4: concrete run in which iteration zero drains
one message, the patch send raises ApiError and the loop exits with the patch
buffer intact. -/
theorem c4_witness :
    c4Enq 0 = [] ∧
    (∀ n, n < c4St.queue.length → c4Oracle 0 n = SendOutcome.ok) ∧
    c4Oracle 0 c4St.queue.length = SendOutcome.apiErr ∧
    c4St.patches ≠ [] ∧
    send_messages_loop c4Oracle noEnqA2 noIp c4Enq 5 0 c4St
      = (c4St.queue,
         .returnedExit { c4St with
             queue := enqConcat (noEnqA2 0) 0 c4St.queue.length
               ++ noEnqA2 0 c4St.queue.length
             patches := asetAll c4St.patches (noIp 0) }) :=
  ⟨rfl, by decide, rfl, by decide,
   c4_apierror_stops_loop c4St c4Oracle noEnqA2 noIp c4Enq 4 0 rfl (by decide) rfl
     (by decide)⟩

/-! ## Shutdown lemmas and claims C7 and C10 -/

/-- The drain loop of stop_and_sync returns only once both the patch buffer
and the queue are empty. -/
theorem syncWait_drained (oracle : Nat → Nat → SendOutcome)
    (enqA : Nat → Nat → List JVal) (ip : Nat → List (String × JVal)) :
    ∀ (fuel : Nat) (st st2 : Client), syncWait oracle enqA ip fuel st = some st2 →
      st2.patches = [] ∧ st2.queue = [] := by
  intro fuel
  induction fuel with
  | zero =>
    intro st st2 h
    by_cases hc : st.patches = [] ∧ st.queue = []
    · simp only [syncWait, if_pos hc, Option.some.injEq] at h
      exact h ▸ hc
    · simp [syncWait, hc] at h
  | succ f ih =>
    intro st st2 h
    by_cases hc : st.patches = [] ∧ st.queue = []
    · simp only [syncWait, if_pos hc, Option.some.injEq] at h
      exact h ▸ hc
    · simp only [syncWait, if_neg hc] at h
      cases hi : send_messages_iter st (oracle f) (enqA f) (ip f) with
      | next st1 tr =>
        rw [hi] at h
        exact ih st1 st2 h
      | raised e s t =>
        rw [hi] at h
        simp at h
      | returned s t =>
        rw [hi] at h
        simp at h

/-- Claim C7 (amended): stop_and_sync blocks until both the OutboundQueue and
the PatchSet are empty before closing the transport session, polling at a
fixed 150 ms interval — which is not the 200 ms dispatcher cadence the claim
describes — and when the connection has not reached the fully closed state
after stop_and_sync completes, shutdown raises the fatal error instead of
returning normally. -/
theorem c7_shutdown_drains_then_closes (st st1 : Client) (lastValue : Option Bool)
    (now : String) (fuel : Nat) (oracle : Nat → Nat → SendOutcome)
    (enqA : Nat → Nat → List JVal) (ip : Nat → List (String × JVal)) (closeOk : Bool)
    (hoff : st.offline = false)
    (hss : stop_and_sync st lastValue now fuel oracle enqA ip closeOk = some (.ok st1)) :
    st1.patches = [] ∧ st1.queue = [] ∧ st1.conn = some closeOk ∧
    stopAndSyncPollMs = 150 ∧ dispatcherSleepMs = 200 ∧
    (closeOk = false →
      shutdown st lastValue now fuel oracle enqA ip false
        = some (.error (.exception "Connection still active"))) := by
  have hss2 := hss
  cases hsw : syncWait oracle enqA ip fuel (terminal_patches st lastValue now) with
  | none =>
    have hn : stop_and_sync st lastValue now fuel oracle enqA ip closeOk = none := by
      unfold stop_and_sync
      rw [hsw]
    rw [hn] at hss2
    exact absurd hss2 (by simp)
  | some st2 =>
    have hcc : stop_and_sync st lastValue now fuel oracle enqA ip closeOk
        = some (closeConnection st2 closeOk) := by
      unfold stop_and_sync
      rw [hsw]
    have hc2 : closeConnection st2 closeOk = Except.ok st1 := by
      rw [hcc] at hss2
      exact Option.some.inj hss2
    have hdr := syncWait_drained oracle enqA ip fuel _ st2 hsw
    cases hcn : st2.conn with
    | none =>
      unfold closeConnection at hc2
      rw [hcn] at hc2
      exact absurd hc2 (by simp)
    | some b =>
      unfold closeConnection at hc2
      rw [hcn] at hc2
      simp only [Except.ok.injEq] at hc2
      have hfields : st1.patches = [] ∧ st1.queue = [] ∧ st1.conn = some closeOk := by
        rw [← hc2]
        exact ⟨hdr.1, hdr.2, rfl⟩
      refine ⟨hfields.1, hfields.2.1, hfields.2.2, rfl, rfl, ?_⟩
      intro hcf
      subst hcf
      have hnt : st1.conn ≠ some true := by
        rw [hfields.2.2]
        simp
      unfold shutdown
      simp only [hoff, Bool.false_eq_true, if_false]
      rw [hss]
      simp [hnt]

/-- Claim C7 counterexample: the claim states the shutdown drain is polled on
the dispatcher cadence; in the source stop_and_sync polls every 0.15 s while
the dispatcher sleeps 0.2 s between iterations, so the cadences differ. -/
theorem c7_counterexample : stopAndSyncPollMs ≠ dispatcherSleepMs := by decide

def c7St : Client :=
  { initClient with conn := some false, connecting := some true }

def c7St1 : Client :=
  { initClient with conn := some false, connecting := some true, stopping := true }

/-- Witness for the amended C7: a concrete run in which the terminal patches
drain in one dispatcher iteration, the close handshake fails to reach the
closed state and shutdown raises. -/
theorem c7_witness :
    c7St.offline = false ∧
    stop_and_sync c7St none "T" 2 okOracle2 noEnqA2 noIp false = some (.ok c7St1) ∧
    (c7St1.patches = [] ∧ c7St1.queue = [] ∧ c7St1.conn = some false ∧
     stopAndSyncPollMs = 150 ∧ dispatcherSleepMs = 200 ∧
     (false = false →
       shutdown c7St none "T" 2 okOracle2 noEnqA2 noIp false
         = some (.error (.exception "Connection still active")))) :=
  ⟨rfl, rfl,
   c7_shutdown_drains_then_closes c7St c7St1 none "T" 2 okOracle2 noEnqA2 noIp false
     rfl rfl⟩

/-! ## Frame lemmas for the subscriber closure: the handler never touches the
pending-call table, and it removes its subscription only through its own
disposer (reached only on an error message, on which it always raises). -/

/-- The fields of the correlator tables that the peer-message responders leave
untouched. -/
def framePres (st st2 : Client) : Prop :=
  st2.callbacks = st.callbacks ∧ st2.subscriber = st.subscriber

theorem framePres_trans {a b c : Client} (h1 : framePres a b) (h2 : framePres b c) :
    framePres a c :=
  ⟨h2.1.trans h1.1, h2.2.trans h1.2⟩

theorem missingActionRespond_frame (entry : SubEntry) (st : Client) (message data : JVal) :
    framePres st (missingActionRespond entry st message data).1 := by
  unfold missingActionRespond
  repeat' split
  all_goals exact ⟨rfl, rfl⟩

theorem actionTypesRespond_frame (entry : SubEntry) (st : Client) (message data : JVal)
    (actName : String) :
    framePres st (actionTypesRespond entry st message data actName).1 := by
  unfold actionTypesRespond
  repeat' split
  all_goals exact ⟨rfl, rfl⟩

theorem invokeRespond_frame (entry : SubEntry) (st : Client) (message data : JVal)
    (actName : String) :
    framePres st (invokeRespond entry st message data actName).1 := by
  unfold invokeRespond
  cases invokeAttempt entry message data actName with
  | ok m => exact ⟨rfl, rfl⟩
  | error e =>
    repeat' split
    all_goals exact ⟨rfl, rfl⟩

theorem andThenE_frame {st : Client} {x : Client × Option PyErr}
    {f : Client → Client × Option PyErr}
    (hx : framePres st x.1) (hf : ∀ s, framePres s (f s).1) :
    framePres st (andThenE x f).1 := by
  rcases x with ⟨st1, e1⟩
  cases e1 with
  | some e => exact hx
  | none => exact framePres_trans hx (hf st1)

theorem peerMessageStep_frame (entry : SubEntry) (st : Client) (message : JVal) :
    framePres st (peerMessageStep entry st message).1 := by
  simp only [peerMessageStep]
  cases hdata : pyIndex message "data" with
  | error e => exact ⟨rfl, rfl⟩
  | ok data =>
    dsimp only
    cases hact : pyIndex data "action" with
    | error e => exact ⟨rfl, rfl⟩
    | ok act =>
      dsimp only
      cases act with
      | null => exact ⟨rfl, rfl⟩
      | boolean b => exact ⟨rfl, rfl⟩
      | num i => exact ⟨rfl, rfl⟩
      | arr l => exact ⟨rfl, rfl⟩
      | obj l => exact ⟨rfl, rfl⟩
      | str actName =>
        refine andThenE_frame ?_ ?_
        · by_cases hcn : entry.controller.actions.contains actName
          · rw [if_pos hcn]
            exact ⟨rfl, rfl⟩
          · rw [if_neg hcn]
            exact missingActionRespond_frame entry st message data
        · intro s1
          cases hnm : pyIndex data "name" with
          | error e => exact ⟨rfl, rfl⟩
          | ok nm =>
            dsimp only
            refine andThenE_frame ?_ ?_
            · by_cases hat : nm = .str "actionTypes"
              · rw [if_pos hat]
                exact actionTypesRespond_frame entry s1 message data actName
              · rw [if_neg hat]
                exact ⟨rfl, rfl⟩
            · intro s2
              by_cases hai : nm = .str "action"
              · rw [if_pos hai]
                exact invokeRespond_frame entry s2 message data actName
              · rw [if_neg hai]
                exact ⟨rfl, rfl⟩

/-- The subscriber closure never touches the pending-call table. -/
theorem subscriberStep_callbacks (subId : Nat) (entry : SubEntry) (st : Client)
    (msg : JVal) :
    (subscriberStep subId entry st msg).1.callbacks = st.callbacks := by
  simp only [subscriberStep]
  cases hty : pyIndex msg "type" with
  | error e => rfl
  | ok ty =>
    dsimp only
    by_cases he : ty = .str "error"
    · rw [if_pos he]
      rcases hsd : subDel st subId with ⟨st1, e1⟩
      have h1 : st1.callbacks = st.callbacks := by
        unfold subDel at hsd
        split at hsd <;> (cases hsd; rfl)
      cases e1 with
      | some e => exact h1
      | none =>
        dsimp only
        rcases hcd : ctrlDel st1 entry.cname with ⟨st2, e2⟩
        have h2 : st2.callbacks = st1.callbacks := by
          unfold ctrlDel at hcd
          split at hcd <;> (cases hcd; rfl)
        cases e2 with
        | some e => exact h2.trans h1
        | none =>
          dsimp only
          cases herr : pyIndex msg "error" with
          | error e2 => exact h2.trans h1
          | ok ev => cases ev <;> exact h2.trans h1
    · rw [if_neg he]
      by_cases hp : ty = .str "peerController/message"
      · rw [if_pos hp]
        exact (peerMessageStep_frame entry st msg).1
      · rw [if_neg hp]

/-- When the subscriber closure completes without raising, the subscription
table is unchanged: only the error branch ever invokes the disposer, and that
branch always raises. -/
theorem subscriberStep_ok_subscriber (subId : Nat) (entry : SubEntry) (st : Client)
    (msg : JVal) :
    (subscriberStep subId entry st msg).2 = none →
    (subscriberStep subId entry st msg).1.subscriber = st.subscriber := by
  simp only [subscriberStep]
  cases hty : pyIndex msg "type" with
  | error e => intro h; exact absurd h (by simp)
  | ok ty =>
    dsimp only
    by_cases he : ty = .str "error"
    · rw [if_pos he]
      rcases hsd : subDel st subId with ⟨st1, e1⟩
      cases e1 with
      | some e => intro h; exact absurd h (by simp)
      | none =>
        dsimp only
        rcases hcd : ctrlDel st1 entry.cname with ⟨st2, e2⟩
        cases e2 with
        | some e => intro h; exact absurd h (by simp)
        | none =>
          dsimp only
          cases herr : pyIndex msg "error" with
          | error e2 => intro h; exact absurd h (by simp)
          | ok ev =>
            cases ev with
            | null => intro h; exact absurd h (by simp)
            | boolean b => intro h; exact absurd h (by simp)
            | num i => intro h; exact absurd h (by simp)
            | str s2 => intro h; exact absurd h (by simp)
            | arr l => intro h; exact absurd h (by simp)
            | obj l => intro h; exact absurd h (by simp)
    · rw [if_neg he]
      by_cases hp : ty = .str "peerController/message"
      · rw [if_pos hp]
        intro h
        exact (peerMessageStep_frame entry st msg).2
      · rw [if_neg hp]
        intro h
        rfl

/-! ## Inbound dispatch: claims C2, C3 and C6 -/

/-- The correlator invariant: every identifier in the pending-call table and
in the subscription table was assigned by the shared counter (hence is bounded
by it), and no identifier lives in both tables.  It holds in every reachable
state because each assignment of a fresh identifier registers it in exactly
one of the two tables (see _message_call and _subscribe). -/
def invB (st : Client) : Bool :=
  st.callbacks.all (fun n => decide (n ≤ st.message_id)
      && decide (n ∉ st.subscriber.map Prod.fst))
    && (st.subscriber.map Prod.fst).all (fun m => decide (m ≤ st.message_id))

theorem cbFind_some {cbs : List Nat} {i : Int} {n : Nat}
    (h : cbFind cbs (.num i) = some n) : n ∈ cbs ∧ (n : Int) = i := by
  simp only [cbFind] at h
  refine ⟨List.mem_of_find?_eq_some h, ?_⟩
  have := List.find?_some h
  simpa using this

theorem subFind_some {subs : List (Nat × SubEntry)} {i : Int} {p : Nat × SubEntry}
    (h : subFind subs (.num i) = some p) : p ∈ subs ∧ (p.1 : Int) = i := by
  simp only [subFind] at h
  refine ⟨List.mem_of_find?_eq_some h, ?_⟩
  have := List.find?_some h
  simpa using this

/-- Under the correlator invariant, an identifier matched in the pending-call
table is not in the subscription table. -/
theorem inv_subFind_none {st : Client} {i : Int} {n : Nat} (hInv : invB st = true)
    (hcb : cbFind st.callbacks (.num i) = some n) :
    subFind st.subscriber (.num i) = none := by
  cases hsf : subFind st.subscriber (.num i) with
  | none => rfl
  | some p =>
    obtain ⟨hmem, hval⟩ := subFind_some hsf
    obtain ⟨hmemc, hvalc⟩ := cbFind_some hcb
    have heq : p.1 = n := by
      have h2 : (p.1 : Int) = (n : Int) := by rw [hval, hvalc]
      exact_mod_cast h2
    unfold invB at hInv
    simp only [Bool.and_eq_true, List.all_eq_true] at hInv
    have h2 := hInv.1 n hmemc
    simp only [Bool.and_eq_true, decide_eq_true_eq] at h2
    exact absurd (heq ▸ List.mem_map_of_mem Prod.fst hmem) h2.2

/-- Claim C6: inbound dispatch of a message bearing identifier i, in a state
satisfying the correlator invariant.  If a pending call exists for i it is
resolved with the message and removed (so it can never resolve twice) and no
subscription handler runs; otherwise if a subscription exists its handler is
invoked and the dispatch does not remove the subscription (the handler itself
leaves the table unchanged whenever it completes without raising); otherwise
the message is discarded silently, with no error and no state change.  At most
one of the two paths runs for a single inbound message. -/
theorem c6_inbound_dispatch (st : Client) (res : JVal) (i : Int)
    (hInv : invB st = true)
    (ht : truthy res = true)
    (hc : jcontains res "id" = .ok true)
    (hg : pyIndex res "id" = .ok (.num i)) :
    (∀ n, cbFind st.callbacks (.num i) = some n →
       handle_messages_step st res
         = ({ st with callbacks := removeNatFirst st.callbacks n }, [.resolved n res], none)) ∧
    (∀ n entry st1, cbFind st.callbacks (.num i) = none →
       subFind st.subscriber (.num i) = some (n, entry) →
       subscriberStep n entry st res = (st1, none) →
       handle_messages_step st res = (st1, [.subInvoked n], none) ∧
       st1.subscriber = st.subscriber) ∧
    (cbFind st.callbacks (.num i) = none → subFind st.subscriber (.num i) = none →
       handle_messages_step st res = (st, [], none)) := by
  refine ⟨?_, ?_, ?_⟩
  · intro n hcb
    have hsf := inv_subFind_none hInv hcb
    simp [handle_messages_step, ht, hc, hg, hsf, hcb]
  · intro n entry st1 hcb hsf hstep
    have hcb1 : st1.callbacks = st.callbacks := by
      have h2 := subscriberStep_callbacks n entry st res
      rw [hstep] at h2
      exact h2
    have hsub1 : st1.subscriber = st.subscriber := by
      have h2 := subscriberStep_ok_subscriber n entry st res
      rw [hstep] at h2
      exact h2 rfl
    refine ⟨?_, hsub1⟩
    simp [handle_messages_step, ht, hc, hg, hsf, hstep, hcb1, hcb]
  · intro hcb hsf
    simp [handle_messages_step, ht, hc, hg, hsf, hcb]

/-- The correlator invariant holds for a fresh client. -/
theorem invB_init : invB initClient = true := by decide

/-- The correlator invariant is preserved by _message: the fresh identifier is
registered in the pending-call table only. -/
theorem invB_message_call (st : Client) (m : JVal) (h : invB st = true) :
    invB (_message_call st m).1 = true := by
  unfold invB at h ⊢
  simp only [_message_call, Bool.and_eq_true, List.all_eq_true, List.mem_append,
    List.mem_singleton, decide_eq_true_eq] at h ⊢
  obtain ⟨h1, h2⟩ := h
  refine ⟨fun n hn => ?_, fun mm hm => ?_⟩
  · rcases hn with hn | hn
    · obtain ⟨hb, hs⟩ := h1 n hn
      exact ⟨by omega, hs⟩
    · subst hn
      refine ⟨Nat.le_refl _, fun hm => ?_⟩
      have := h2 _ hm
      omega
  · have := h2 mm hm
    omega

/-- The correlator invariant is preserved by _subscribe: the fresh identifier
is registered in the subscription table only. -/
theorem invB_subscribe (st : Client) (m : JVal) (e : SubEntry) (h : invB st = true) :
    invB (_subscribe st m e).1 = true := by
  unfold invB at h ⊢
  simp only [_subscribe, Bool.and_eq_true, List.all_eq_true, List.map_append,
    List.mem_append, List.mem_singleton, List.map_cons, List.map_nil,
    decide_eq_true_eq] at h ⊢
  obtain ⟨h1, h2⟩ := h
  refine ⟨fun n hn => ?_, fun mm hm => ?_⟩
  · obtain ⟨hb, hs⟩ := h1 n hn
    refine ⟨by omega, fun hmem => ?_⟩
    rcases hmem with hmem | hmem
    · exact hs hmem
    · omega
  · rcases hm with hm | hm
    · have := h2 mm hm
      omega
    · omega

/-- A small controller object used by the concrete states: one method named
foo of arity one whose invocation returns null. -/
def regCtrl : Controller := ⟨["foo"], fun _ => 1, fun _ _ => Except.ok .null⟩

def c6St : Client :=
  { initClient with
      message_id := 2
      callbacks := [2]
      subscriber := [(1, ⟨"x", regCtrl⟩)]
      connecting := some true
      conn := some false }

def c6Res : JVal := .obj [("id", .num 2), ("type", .str "ack")]

/-- Witness for C6 at a concrete state holding one pending call (id 2) and one
subscription (id 1): the inbound message for id 2 resolves and removes the
pending call. -/
theorem c6_witness :
    invB c6St = true ∧ truthy c6Res = true ∧ jcontains c6Res "id" = .ok true ∧
    pyIndex c6Res "id" = .ok (.num 2) ∧ cbFind c6St.callbacks (.num 2) = some 2 ∧
    handle_messages_step c6St c6Res
      = ({ c6St with callbacks := removeNatFirst c6St.callbacks 2 },
         [.resolved 2 c6Res], none) :=
  ⟨by decide, rfl, rfl, rfl, rfl,
   (c6_inbound_dispatch c6St c6Res 2 (by decide) rfl rfl rfl).1 2 rfl⟩

def c2St : Client :=
  { initClient with
      connecting := some true
      conn := some false
      message_id := 1
      subscriber := [(1, ⟨"myctrl", regCtrl⟩)] }

def c2Msg : JVal :=
  .obj [("type", .str "peerController/message"), ("id", .num 1), ("clientId", .str "c1"),
        ("data", .obj [("action", .str "missing"), ("name", .str "action"), ("id", .num 7),
                       ("args", .arr [])])]

/-- Claim C2 (code bug): an inbound invoke message targets the action named
missing, which the registered controller does not have.  The handler builds
its diagnostic from the key action of the OUTER message — which carries no
such key, since the requested action name lives under data — so it raises
KeyError before any response is built: no protocol error response is emitted
(the state, including the outbound queue, is returned unchanged) and the
exception propagates out of handle_messages, killing the receive loop. -/
theorem c2_missing_action_raises_keyerror :
    handle_messages_step c2St c2Msg = (c2St, [.subInvoked 1], some (.keyError "action")) :=
  rfl

def regSt : Client := { initClient with connecting := some true, conn := some false }

def regErr : JVal :=
  .obj [("type", .str "error"), ("id", .num 1), ("error", .str "name taken")]

def regStAfter : Client :=
  { initClient with
      message_id := 1
      queue := [.obj [("name", .str "peerController/register"),
                      ("controllerName", .str "mine"), ("id", .num 1)]]
      connecting := some true
      conn := some false }

/-- Claim C3 counterexample: register_controller returns its handle with the
pending-call table untouched (no future is created that could reject), so when
the remote side rejects the registration with an error message the raised
exception cannot reach the caller who awaited register_controller: it surfaces
as the raised error of the inbound dispatch step (killing the receive loop),
with the registry and subscription entries removed. -/
theorem c3_counterexample :
    (register_controller regSt "mine" regCtrl).callbacks = [] ∧
    handle_messages_step (register_controller regSt "mine" regCtrl) regErr
      = (regStAfter, [.subInvoked 1],
         some (.exception "Register controller error: name taken")) :=
  ⟨rfl, rfl⟩

/-- Claim C3 (amended): when the subscription of a registered controller
receives an error message, the registry entry and the subscription are removed
and the error is raised as an exception inside the subscription handler — it
propagates out of handle_messages and terminates the receive loop — while
register_controller itself completed earlier without any exception and without
creating a pending call (the callbacks table is untouched), so nothing is
delivered to the caller who awaited it. -/
theorem c3_registration_error_raises_in_receive_loop (stR st : Client)
    (name : String) (c : Controller) (subId : Nat) (msg : JVal) (s : String)
    (hty : pyIndex msg "type" = .ok (.str "error"))
    (herr : pyIndex msg "error" = .ok (.str s))
    (hsub : hasKey st.subscriber subId = true)
    (hctrl : hasKey st.controllers name = true) :
    (register_controller stR name c).callbacks = stR.callbacks ∧
    subscriberStep subId ⟨name, c⟩ st msg
      = ({ st with
            subscriber := aerase st.subscriber subId
            controllers := aerase st.controllers name },
         some (.exception ("Register controller error: " ++ s))) := by
  refine ⟨rfl, ?_⟩
  simp [subscriberStep, hty, subDel, hsub, ctrlDel, hctrl, herr]

def c3WSt : Client := register_controller regSt "mine" regCtrl

/-- Witness for the amended C3 at the concrete post-registration state. -/
theorem c3_witness :
    pyIndex regErr "type" = .ok (.str "error") ∧
    pyIndex regErr "error" = .ok (.str "name taken") ∧
    hasKey c3WSt.subscriber 1 = true ∧
    hasKey c3WSt.controllers "mine" = true ∧
    ((register_controller regSt "mine" regCtrl).callbacks = regSt.callbacks ∧
     subscriberStep 1 ⟨"mine", regCtrl⟩ c3WSt regErr
       = ({ c3WSt with
             subscriber := aerase c3WSt.subscriber 1
             controllers := aerase c3WSt.controllers "mine" },
          some (.exception ("Register controller error: " ++ "name taken")))) :=
  ⟨rfl, rfl, by decide, by decide,
   c3_registration_error_raises_in_receive_loop regSt c3WSt "mine" regCtrl 1 regErr
     "name taken" rfl rfl (by decide) (by decide)⟩

/-! ## Identifier assignment: claim C8 -/

theorem pairwise_lt_range' : ∀ (n s : Nat), List.Pairwise (· < ·) (List.range' s n)
  | 0, s => by simp
  | n + 1, s => by
    rw [List.range'_succ]
    refine List.Pairwise.cons (fun m hm => ?_) (pairwise_lt_range' n (s + 1))
    obtain ⟨j, hj, rfl⟩ := List.mem_range'.mp hm
    omega

/-- Every run of identifier-assigning correlator operations hands out the
consecutive identifiers following the current counter, and advances the
counter by the number of operations. -/
theorem runOps_ids : ∀ (ops : List CorrOp) (st : Client),
    (runOps st ops).2 = List.range' (st.message_id + 1) ops.length ∧
    (runOps st ops).1.message_id = st.message_id + ops.length := by
  intro ops
  induction ops with
  | nil => intro st; simp [runOps]
  | cons op rest ih =>
    intro st
    cases op with
    | call m =>
      have ihh := ih (_message_call st m).1
      constructor
      · show (_message_call st m).2 :: (runOps (_message_call st m).1 rest).2
            = List.range' (st.message_id + 1) (rest.length + 1)
        rw [List.range'_succ, ihh.1]
        rfl
      · show (runOps (_message_call st m).1 rest).1.message_id
            = st.message_id + (rest.length + 1)
        rw [ihh.2]
        show (st.message_id + 1) + rest.length = st.message_id + (rest.length + 1)
        omega
    | sub m e =>
      have ihh := ih (_subscribe st m e).1
      constructor
      · show (_subscribe st m e).2 :: (runOps (_subscribe st m e).1 rest).2
            = List.range' (st.message_id + 1) (rest.length + 1)
        rw [List.range'_succ, ihh.1]
        rfl
      · show (runOps (_subscribe st m e).1 rest).1.message_id
            = st.message_id + (rest.length + 1)
        rw [ihh.2]
        show (st.message_id + 1) + rest.length = st.message_id + (rest.length + 1)
        omega

/-- Claim C8: for every sequence of identifier assignments performed through
_message and _subscribe from a fresh client, the assigned identifiers are
exactly 1, 2, ..., n: strictly increasing, never reused and never zero. -/
theorem c8_identifiers_strictly_increasing (ops : List CorrOp) :
    (runOps initClient ops).2 = List.range' 1 ops.length ∧
    List.Pairwise (· < ·) (runOps initClient ops).2 ∧
    (runOps initClient ops).2.Nodup ∧
    0 ∉ (runOps initClient ops).2 := by
  have h1 : (runOps initClient ops).2 = List.range' 1 ops.length :=
    (runOps_ids ops initClient).1
  refine ⟨h1, ?_, ?_, ?_⟩
  · rw [h1]
    exact pairwise_lt_range' ops.length 1
  · rw [h1]
    exact (pairwise_lt_range' ops.length 1).imp Nat.ne_of_lt
  · rw [h1]
    intro hm
    obtain ⟨j, hj, he⟩ := List.mem_range'.mp hm
    omega

/-! ## Offline mode: claims C9 and C10 -/

/-- Claim C9: when the initial user-mode connection attempt fails, the client
enters permanent offline mode: the failing branch schedules no task at all (no
reconnect, no receive loop, no send loop), and in the resulting state every
patch call returns immediately leaving the state untouched and every action
call returns None immediately — no exception, no enqueued message, no network
activity. -/
theorem c9_offline_mode (st0 st : Client) (tasks : List SpawnedTask)
    (h : connect_user_fail st0 = (st, tasks)) :
    tasks = [] ∧ st.offline = true ∧
    (∀ p v, patch st p v = st) ∧
    (∀ c a args lock ais, _action st c a args lock ais = .done none st) := by
  have h1 : st = { st0 with queue := [], offline := true, connecting := some false } := by
    have h2 := congrArg Prod.fst h
    simpa [connect_user_fail] using h2.symm
  have h2 : tasks = [] := by
    have h3 := congrArg Prod.snd h
    simpa [connect_user_fail] using h3.symm
  subst h1
  refine ⟨h2, rfl, fun p v => ?_, fun c a args lock ais => ?_⟩
  · simp [patch]
  · simp [_action]

def offSt : Client :=
  { initClient with queue := [], offline := true, connecting := some false }

/-- Witness for C9: the concrete failing connect from the initial state. -/
theorem c9_witness :
    connect_user_fail initClient = (offSt, []) ∧
    (([] : List SpawnedTask) = [] ∧ offSt.offline = true ∧
     (∀ p v, patch offSt p v = offSt) ∧
     (∀ c a args lock ais, _action offSt c a args lock ais = .done none offSt)) :=
  ⟨rfl, c9_offline_mode initClient offSt [] rfl⟩

/-- Claim C10: shutdown on an offline client returns immediately with the
state unchanged: stop_and_sync never runs, so no terminal status patches are
enqueued, the stopping flag stays as it is, the drain loop is not entered, no
connection is closed, and the event loop is left running (loop.stop is never
reached). -/
theorem c10_shutdown_offline_noop (st : Client) (lastValue : Option Bool) (now : String)
    (fuel : Nat) (oracle : Nat → Nat → SendOutcome) (enqA : Nat → Nat → List JVal)
    (ip : Nat → List (String × JVal)) (closeOk : Bool) (h : st.offline = true) :
    shutdown st lastValue now fuel oracle enqA ip closeOk = some (.ok st) := by
  simp [shutdown, h]

/-- Witness for C10 at the concrete offline state. -/
theorem c10_witness :
    offSt.offline = true ∧
    shutdown offSt none "T" 3 okOracle2 noEnqA2 noIp true = some (.ok offSt) :=
  ⟨rfl, c10_shutdown_offline_noop offSt none "T" 3 okOracle2 noEnqA2 noIp true rfl⟩

end Deepkit
